import Mathlib

/-!
Shallow embedding of the commit-range revert engine and reset-safety
classifier from `src/src-tauri/src/commands/simple_git.rs`.

The Rust code drives an external `git` process.  We model each external
command invocation as a field of an environment record holding the
`Result`/output the process layer would return; the embedded functions
reproduce the Rust control flow over that environment.  Rust strings are
Lean `String`s; `String::from_utf8_lossy` on process output is modelled as
the identity (outputs are taken to be valid UTF-8 strings).  Byte-index
slicing of strings (`&s[..n]`), which panics off a UTF-8 character
boundary, is modelled explicitly via the byte layout of `Char`.
-/

namespace SimpleGit

/-- Total UTF-8 byte length of a character list (Rust `str::len`). -/
def utf8Len : List Char → Nat
  | [] => 0
  | c :: cs => c.utf8Size + utf8Len cs

/-- Whether byte index `n` is a character boundary of the string with the
given characters (Rust `str::is_char_boundary`). -/
def isBoundary : List Char → Nat → Bool
  | _, 0 => true
  | [], _ + 1 => false
  | c :: cs, n + 1 =>
    if c.utf8Size ≤ n + 1 then isBoundary cs (n + 1 - c.utf8Size) else false

/-- The characters making up the first `n` bytes of a string; empty tail when
`n` is not a boundary (the panic case is detected separately). -/
def takeBytes : List Char → Nat → List Char
  | _, 0 => []
  | [], _ + 1 => []
  | c :: cs, n + 1 =>
    if c.utf8Size ≤ n + 1 then c :: takeBytes cs (n + 1 - c.utf8Size) else []

/-- Whether the slice `&s[..8.min(s.len())]` used for logging/message
formatting is valid (does not panic). -/
def refSliceValid (s : String) : Bool :=
  isBoundary s.data (min 8 (utf8Len s.data))

/-- The string produced by `&s[..8.min(s.len())]` when the slice is valid. -/
def slice8 (s : String) : String :=
  ⟨takeBytes s.data (min 8 (utf8Len s.data))⟩

/-- Whether every character of the string is ASCII (one UTF-8 byte). -/
def allAscii (s : String) : Bool :=
  s.data.all (fun c => c.utf8Size = 1)

/-- `pat` matches at the head of `hay` (chars of Rust `str::starts_with`). -/
def startsWithL : List Char → List Char → Bool
  | [], _ => true
  | _ :: _, [] => false
  | a :: pat, b :: hay => a == b && startsWithL pat hay

/-- `pat` occurs as a contiguous substring of `hay`. -/
def hasSubstr (pat : List Char) : List Char → Bool
  | [] => startsWithL pat []
  | b :: hay => startsWithL pat (b :: hay) || hasSubstr pat hay

/-- Rust `str::contains` with a string pattern: substring containment. -/
def rcontains (hay pat : String) : Bool :=
  hasSubstr pat.data hay.data

/-- Rust `str::to_lowercase`: lower-case every character. -/
def rlower (s : String) : String :=
  ⟨s.data.map Char.toLower⟩

/-- Rust `str::trim`: strip whitespace from both ends of the string. -/
def rtrim (s : String) : String :=
  ⟨((s.data.dropWhile Char.isWhitespace).reverse.dropWhile
      Char.isWhitespace).reverse⟩

/-- Rust `str::lines`: split at newlines, dropping an optional final line
ending, and stripping a trailing carriage return from each line. -/
def rustLines (s : String) : List String :=
  let parts := s.splitOn "\n"
  let parts := if parts.getLast? = some "" then parts.dropLast else parts
  parts.map (fun l => if l.endsWith "\r" then l.dropRight 1 else l)

/-- Captured output of one external process invocation
(`std::process::Output`): exit-status success flag, stdout, stderr. -/
structure CmdOutput where
  success : Bool
  stdout : String
  stderr : String
deriving DecidableEq

/-- Result of a Rust function that can also panic (byte-slice off a char
boundary); `err` is the `Err` branch of the Rust `Result`. -/
inductive RResult (α : Type) where
  | panicked : RResult α
  | err : String → RResult α
  | ok : α → RResult α
deriving DecidableEq

/-! ## `git_commit_changes` -/

/-- Environment for `git_commit_changes`: the outcomes the process layer
returns for `git status --porcelain`, `git add -A` and `git commit -m`.
An `Except.error` models `Command::output()` itself failing. -/
structure CommitEnv where
  statusResult : Except String CmdOutput
  addResult : Except String CmdOutput
  commitResult : Except String CmdOutput

/-- Result of a `git_commit_changes` run together with whether a commit was
actually created (the `git commit` invocation ran and succeeded). -/
structure CommitRun where
  result : Except String Bool
  commitCreated : Bool

/-- Embedding of `git_commit_changes` (simple_git.rs lines 142-208). -/
def git_commit_changes (message : String) (env : CommitEnv) : CommitRun :=
  match env.statusResult with
  | .error e => ⟨.error ("Failed to check git status: " ++ e), false⟩
  | .ok st =>
    if st.success = false then
      ⟨.error ("Git status failed: " ++ st.stderr), false⟩
    else if rtrim st.stdout = "" then
      ⟨.ok false, false⟩
    else
      match env.addResult with
      | .error e => ⟨.error ("Failed to git add: " ++ e), false⟩
      | .ok ad =>
        if ad.success = false then
          ⟨.error ("Git add failed: " ++ ad.stderr), false⟩
        else
          match env.commitResult with
          | .error e => ⟨.error ("Failed to git commit: " ++ e), false⟩
          | .ok co =>
            if co.success = false then
              ⟨.error ("Git commit failed: " ++ co.stderr), false⟩
            else
              ⟨.ok true, true⟩

/-! ## `git_revert_range` -/

/-- The `RevertResult` struct returned by the precise revert engine. -/
structure RevertResult where
  success : Bool
  commits_reverted : Nat
  new_commit : Option String
  message : String
  has_conflicts : Bool
deriving DecidableEq

/-- Environment for `git_revert_range`: outcomes of
`git rev-list --count from..to` (via `git_commit_count_between`),
`git revert --no-commit from..to`, `git status --porcelain`,
`git commit -m`, and `git rev-parse HEAD` (via `git_current_commit`). -/
structure RevertEnv where
  countResult : Except String Nat
  revertResult : Except String CmdOutput
  statusResult : Except String CmdOutput
  commitResult : Except String CmdOutput
  headResult : Except String String

/-- Result of a `git_revert_range` run, with trace flags: whether
`git revert --abort` was invoked and whether a revert commit was created. -/
structure RevertRun where
  result : RResult RevertResult
  abortInvoked : Bool
  commitCreated : Bool
deriving DecidableEq

/-- `git_commit_count_between(...).unwrap_or(1)`: the informational count
reported by the revert engine, falling back to 1 on query failure. -/
def reportedCount : Except String Nat → Nat
  | .ok n => n
  | .error _ => 1

/-- Message of the conflict outcome: the fixed Chinese text followed by the
first three lines of the underlying stderr. -/
def conflictMsg (stderr : String) : String :=
  "撤回时发生冲突，无法自动完成。建议手动处理或使用\x27仅删除对话\x27模式。\n详情: " ++
    String.intercalate "\n" ((rustLines stderr).take 3)

/-- Embedding of `git_revert_range` (simple_git.rs lines 270-411).  The
entry `log::info!` slices both references at byte index `8.min(len)` and
panics off a character boundary; the success `log::info!` similarly slices
the new head hash. -/
def git_revert_range (commit_before commit_after message : String)
    (env : RevertEnv) : RevertRun :=
  if refSliceValid commit_before = false then ⟨.panicked, false, false⟩
  else if refSliceValid commit_after = false then ⟨.panicked, false, false⟩
  else if commit_before = commit_after then
    ⟨.ok ⟨true, 0, none, "没有代码更改需要撤回", false⟩, false, false⟩
  else
    let commit_count := reportedCount env.countResult
    match env.revertResult with
    | .error e => ⟨.err ("Failed to execute git revert: " ++ e), false, false⟩
    | .ok out =>
      if out.success = false then
        if rcontains out.stderr "conflict" || rcontains out.stderr "CONFLICT" then
          ⟨.ok ⟨false, 0, none, conflictMsg out.stderr, true⟩, true, false⟩
        else
          ⟨.err ("Git revert failed: " ++ out.stderr), false, false⟩
      else
        match env.statusResult with
        | .error e => ⟨.err ("Failed to check status: " ++ e), false, false⟩
        | .ok st =>
          if rtrim st.stdout = "" then
            ⟨.ok ⟨true, commit_count, none, "代码已经处于目标状态，无需更改", false⟩,
              false, false⟩
          else
            match env.commitResult with
            | .error e => ⟨.err ("Failed to commit revert: " ++ e), false, false⟩
            | .ok co =>
              if co.success = false then
                ⟨.err ("Failed to commit revert: " ++ co.stderr), false, false⟩
              else
                match env.headResult with
                | .ok h =>
                  if refSliceValid h = false then ⟨.panicked, false, true⟩
                  else
                    ⟨.ok ⟨true, commit_count, some h,
                      "成功撤回 " ++ toString commit_count ++ " 个提交的代码更改",
                      false⟩, false, true⟩
                | .error _ =>
                  ⟨.ok ⟨true, commit_count, none,
                    "成功撤回 " ++ toString commit_count ++ " 个提交的代码更改",
                    false⟩, false, true⟩

/-- Embedding of the `precise_revert_code` Tauri command (lines 415-429):
formats the revert message, byte-slicing both references, then delegates to
`git_revert_range`. -/
def precise_revert_code (commit_before commit_after : String)
    (prompt_index : Nat) (env : RevertEnv) : RevertRun :=
  if refSliceValid commit_before = false then ⟨.panicked, false, false⟩
  else if refSliceValid commit_after = false then ⟨.panicked, false, false⟩
  else
    let message := "[Revert] 撤回提示词 #" ++ toString prompt_index ++
      " 的代码更改 (" ++ slice8 commit_before ++ ".." ++ slice8 commit_after ++ ")"
    git_revert_range commit_before commit_after message env

/-! ## `check_reset_safety` -/

/-- The `ResetSafetyInfo` struct returned by the safety classifier. -/
structure ResetSafetyInfo where
  commits_to_lose : Nat
  has_other_engine_commits : Bool
  has_user_commits : Bool
  commits_summary : List String
  safe_to_proceed : Bool
  warning : Option String
deriving DecidableEq

/-- `msg.contains("[Claude") || msg.contains("[Claude Code]")`. -/
def commitIsClaude (msg : String) : Bool :=
  rcontains msg "[Claude" || rcontains msg "[Claude Code]"

/-- `msg.contains("[Codex]")`. -/
def commitIsCodex (msg : String) : Bool :=
  rcontains msg "[Codex]"

/-- `msg.contains("[Gemini]")`. -/
def commitIsGemini (msg : String) : Bool :=
  rcontains msg "[Gemini]"

/-- `msg.contains("[Claude Workbench]")`. -/
def commitIsWorkbench (msg : String) : Bool :=
  rcontains msg "[Claude Workbench]"

/-- The `is_current_engine` match on `current_engine.as_str()`. -/
def isCurrentEngine (engine msg : String) : Bool :=
  match engine with
  | "claude" => commitIsClaude msg || commitIsWorkbench msg
  | "codex" => commitIsCodex msg
  | "gemini" => commitIsGemini msg
  | _ => false

/-- `is_any_engine`: the subject carries some recognized engine marker. -/
def isAnyEngine (msg : String) : Bool :=
  commitIsClaude msg || commitIsCodex msg || commitIsGemini msg ||
    commitIsWorkbench msg

/-- The loop branch `is_any_engine && !is_current_engine`: counted as an
other-engine commit. -/
def isOtherEngineCommit (engine msg : String) : Bool :=
  isAnyEngine msg && !isCurrentEngine engine msg

/-- The loop branch `!is_any_engine && !msg_lower.contains("merge")`:
counted as a user manual commit. -/
def isUserCommit (msg : String) : Bool :=
  !isAnyEngine msg && !rcontains (rlower msg) "merge"

/-- Environment for `check_reset_safety`: results of `git_current_commit`,
`git_commit_count_between(target, head)` and `git_log_between(target, head)`. -/
structure SafetyEnv where
  headResult : Except String String
  countResult : Except String Nat
  logResult : Except String (List String)

/-- Embedding of the `check_reset_safety` Tauri command (simple_git.rs
lines 581-697).  The entry `log::info!` byte-slices the target reference. -/
def check_reset_safety (target_commit current_engine : String)
    (env : SafetyEnv) : RResult ResetSafetyInfo :=
  if refSliceValid target_commit = false then .panicked
  else
    match env.headResult with
    | .error e => .err e
    | .ok current_head =>
      if current_head = target_commit then
        .ok ⟨0, false, false, [], true, none⟩
      else
        match env.countResult with
        | .error e => .err e
        | .ok commits_to_lose =>
          match env.logResult with
          | .error e => .err e
          | .ok commits_summary =>
            let has_other := commits_summary.any (isOtherEngineCommit current_engine)
            let has_user := commits_summary.any isUserCommit
            let other_count :=
              (commits_summary.filter (isOtherEngineCommit current_engine)).length
            let user_count := (commits_summary.filter isUserCommit).length
            let safe := !has_other && !has_user && decide (commits_to_lose ≤ 5)
            let warning :=
              if safe = false then
                some (String.intercalate "；"
                  ((if has_other then
                      ["检测到 " ++ toString other_count ++ " 个来自其他引擎的提交将被丢失"]
                    else []) ++
                   (if has_user then
                      ["检测到 " ++ toString user_count ++ " 个用户手动提交将被丢失"]
                    else []) ++
                   (if decide (5 < commits_to_lose) && !has_other && !has_user then
                      ["将丢失 " ++ toString commits_to_lose ++ " 个提交，这可能会回滚较多代码更改"]
                    else [])))
              else none
            .ok ⟨commits_to_lose, has_other, has_user, commits_summary.take 10,
              safe, warning⟩

/-- `safe_to_proceed` of a classifier result (`false` on error/panic). -/
def safeOf (r : RResult ResetSafetyInfo) : Bool :=
  match r with
  | .ok info => info.safe_to_proceed
  | _ => false

/-- `has_other_engine_commits` of a classifier result. -/
def otherOf (r : RResult ResetSafetyInfo) : Bool :=
  match r with
  | .ok info => info.has_other_engine_commits
  | _ => false

/-- `has_user_commits` of a classifier result. -/
def userOf (r : RResult ResetSafetyInfo) : Bool :=
  match r with
  | .ok info => info.has_user_commits
  | _ => false

/-- `commits_to_lose` of a classifier result. -/
def countOf (r : RResult ResetSafetyInfo) : Nat :=
  match r with
  | .ok info => info.commits_to_lose
  | _ => 0

/-! ## Abstract repository model for the range-revert correctness claim

The Rust engine delegates the actual tree manipulation to the external
version-control engine (`git revert --no-commit from..to`).  Following the
spec (§4.3 step 3 and §8), we model a tree as the contents of a fixed
finite universe of files (`none` = file absent) and the native range-revert
capability as a per-file three-way merge that undoes the net change of the
range on top of the current tree. -/

/-- A working tree: content of each file in a fixed finite file universe;
`none` means the file is absent. -/
abbrev Tree := List (Option Nat)

/-- Modelled from the spec: per-file effect of reverting a range that took
the file from `b` to `c`, applied on top of current content `e`.  A file
untouched by the range keeps its current content; a file whose current
content matches the range's result is returned to its pre-range content;
a file already at its pre-range content stays; anything else is a content
conflict (`none`). -/
def revertFile (b c e : Option Nat) : Option (Option Nat) :=
  if b = c then some e
  else if e = c then some b
  else if e = b then some e
  else none

/-- Modelled from the spec: the version-control engine's native range
revert, `git revert --no-commit`, staging the inverse of the range
`(before, after)` on top of the current tree; `none` = content conflict. -/
def revertTree : Tree → Tree → Tree → Option Tree
  | [], [], [] => some []
  | b :: bs, c :: cs, e :: es =>
    match revertFile b c e, revertTree bs cs es with
    | some v, some rest => some (v :: rest)
    | _, _ => none
  | _, _, _ => none

/-- A repository with linear history `A → B → C → D → E` (head `E`),
recorded by the tree at each commit. -/
structure Repo5 where
  treeA : Tree
  treeB : Tree
  treeC : Tree
  treeD : Tree
  treeE : Tree

/-- Modelled from the spec: the environment the external version-control
engine presents to `git_revert_range` for reverting range `B..C` of a
`Repo5` with head `E`.  The range `B..C` contains the single commit `C`, so
`rev-list --count` reports 1; the stage-only revert succeeds exactly when
the three-way merge has no conflict; `git status --porcelain` is empty
exactly when the staged tree equals the current tree; the new head hash
after the revert commit is `"rrrrrrrr"`. -/
def envOfRepo (r : Repo5) : RevertEnv where
  countResult := .ok 1
  revertResult :=
    match revertTree r.treeB r.treeC r.treeE with
    | some _ => .ok ⟨true, "", ""⟩
    | none => .ok ⟨false, "", "error: could not revert\nCONFLICT (content): Merge conflict"⟩
  statusResult :=
    match revertTree r.treeB r.treeC r.treeE with
    | some t => .ok ⟨true, if t = r.treeE then "" else "M  src", ""⟩
    | none => .ok ⟨true, "M  src", ""⟩
  commitResult := .ok ⟨true, "", ""⟩
  headResult := .ok "rrrrrrrr"

/-- Modelled from the spec: the repository history after a
`git_revert_range` run over `envOfRepo`: the `git commit` invocation, when
it ran and succeeded, appends a commit whose tree is the staged revert
tree; otherwise history is unchanged. -/
def postHistory (r : Repo5) (run : RevertRun) : List Tree :=
  let hist := [r.treeA, r.treeB, r.treeC, r.treeD, r.treeE]
  match revertTree r.treeB r.treeC r.treeE with
  | some t => if run.commitCreated then hist ++ [t] else hist
  | none => hist

/-! ## Helper lemmas -/

theorem utf8Len_ascii (cs : List Char) (h : ∀ c ∈ cs, c.utf8Size = 1) :
    utf8Len cs = cs.length := by
  induction cs with
  | nil => rfl
  | cons c cs ih =>
    simp only [utf8Len, List.length_cons]
    rw [h c (List.mem_cons_self c cs), ih (fun x hx => h x (List.mem_cons_of_mem c hx))]
    omega

theorem isBoundary_ascii (cs : List Char) (h : ∀ c ∈ cs, c.utf8Size = 1) :
    ∀ i, i ≤ cs.length → isBoundary cs i = true := by
  induction cs with
  | nil =>
    intro i hi
    have : i = 0 := Nat.le_zero.mp (by simpa using hi)
    subst this
    rfl
  | cons c cs ih =>
    intro i hi
    cases i with
    | zero => rfl
    | succ j =>
      have hc : c.utf8Size = 1 := h c (List.mem_cons_self c cs)
      simp only [isBoundary, hc]
      have : 1 ≤ j + 1 := Nat.succ_le_succ (Nat.zero_le j)
      rw [if_pos this]
      have : j + 1 - 1 = j := rfl
      rw [this]
      exact ih (fun x hx => h x (List.mem_cons_of_mem c hx)) j
        (Nat.le_of_succ_le_succ (by simpa using hi))

theorem refSliceValid_of_ascii (s : String) (h : allAscii s = true) :
    refSliceValid s = true := by
  have hall : ∀ c ∈ s.data, c.utf8Size = 1 := by
    intro c hc
    have := (List.all_eq_true.mp h) c hc
    simpa using this
  unfold refSliceValid
  apply isBoundary_ascii s.data hall
  rw [utf8Len_ascii s.data hall]
  exact Nat.min_le_right 8 s.data.length

theorem isAnyEngine_of_current (engine msg : String)
    (hc : isCurrentEngine engine msg = true) : isAnyEngine msg = true := by
  unfold isCurrentEngine at hc
  split at hc <;>
    simp only [isAnyEngine, Bool.or_eq_true] at hc ⊢ <;> tauto

theorem revertTree_unchanged (bs : Tree) :
    ∀ (cs es R : Tree), revertTree bs cs es = some R →
      ∀ i, bs.get? i = cs.get? i → R.get? i = es.get? i := by
  induction bs with
  | nil =>
    intro cs es R h i hi
    cases cs <;> cases es <;> simp [revertTree] at h
    subst h
    rfl
  | cons b bs ih =>
    intro cs es R h i hi
    cases cs with
    | nil => simp [revertTree] at h
    | cons c cs =>
      cases es with
      | nil => simp [revertTree] at h
      | cons e es =>
        simp only [revertTree] at h
        cases hf : revertFile b c e with
        | none => rw [hf] at h; simp at h
        | some v =>
          rw [hf] at h
          cases hr : revertTree bs cs es with
          | none => rw [hr] at h; simp at h
          | some rest =>
            rw [hr] at h
            simp only [Option.some.injEq] at h
            subst h
            cases i with
            | zero =>
              simp only [List.get?] at hi ⊢
              have hbc : b = c := by simpa using hi
              rw [hbc] at hf
              simp [revertFile] at hf
              simp [hf]
            | succ j =>
              simp only [List.get?] at hi ⊢
              exact ih cs es rest hr j hi

theorem revertTree_undone (bs : Tree) :
    ∀ (cs es R : Tree), revertTree bs cs es = some R →
      ∀ i, es.get? i = cs.get? i → R.get? i = bs.get? i := by
  induction bs with
  | nil =>
    intro cs es R h i hi
    cases cs <;> cases es <;> simp [revertTree] at h
    subst h
    rfl
  | cons b bs ih =>
    intro cs es R h i hi
    cases cs with
    | nil => simp [revertTree] at h
    | cons c cs =>
      cases es with
      | nil => simp [revertTree] at h
      | cons e es =>
        simp only [revertTree] at h
        cases hf : revertFile b c e with
        | none => rw [hf] at h; simp at h
        | some v =>
          rw [hf] at h
          cases hr : revertTree bs cs es with
          | none => rw [hr] at h; simp at h
          | some rest =>
            rw [hr] at h
            simp only [Option.some.injEq] at h
            subst h
            cases i with
            | zero =>
              simp only [List.get?] at hi ⊢
              have hec : e = c := by simpa using hi
              by_cases hbc : b = c
              · rw [revertFile, if_pos hbc] at hf
                simp only [Option.some.injEq] at hf
                subst hf
                simp [hec, hbc]
              · rw [revertFile, if_neg hbc, if_pos hec] at hf
                simp only [Option.some.injEq] at hf
                subst hf
                rfl
            | succ j =>
              simp only [List.get?] at hi ⊢
              exact ih cs es rest hr j hi

/-! ## Claim theorems -/

/-- C4: for every environment (repository state) and every message, calling
`git_revert_range` with `from` equal to `to` (an ASCII reference, as commit
hashes are) returns immediately with `success = true`,
`commits_reverted = 0`, `new_commit = none`, invoking no git command, never
aborting, never creating a commit, and never returning an error. -/
theorem revert_range_empty_range (x msg : String) (env : RevertEnv)
    (hx : allAscii x = true) :
    git_revert_range x x msg env =
      ⟨.ok ⟨true, 0, none, "没有代码更改需要撤回", false⟩, false, false⟩ := by
  have hv := refSliceValid_of_ascii x hx
  simp [git_revert_range, hv]

/-- Witness for C4 at a concrete reference, message and environment whose
every external command would fail: the early return still fires. -/
theorem revert_range_empty_range_witness :
    git_revert_range "abc12345" "abc12345" "m"
      ⟨.error "e1", .error "e2", .error "e3", .error "e4", .error "e5"⟩ =
      ⟨.ok ⟨true, 0, none, "没有代码更改需要撤回", false⟩, false, false⟩ :=
  revert_range_empty_range "abc12345" "m" _ (by decide)

/-- C9: when `git status --porcelain` succeeds and reports a clean working
tree, `git_commit_changes` returns `Ok(false)` without error and without
creating a commit. -/
theorem commit_changes_clean_tree (msg : String) (env : CommitEnv)
    (st : CmdOutput) (hst : env.statusResult = .ok st)
    (hsucc : st.success = true) (hempty : rtrim st.stdout = "") :
    git_commit_changes msg env = ⟨.ok false, false⟩ := by
  simp [git_commit_changes, hst, hsucc, hempty]

/-- Witness for C9: a clean status output yields `Ok(false)` and no commit,
even when the later `add`/`commit` commands would fail. -/
theorem commit_changes_clean_tree_witness :
    git_commit_changes "m"
      ⟨.ok ⟨true, "", ""⟩, .error "a", .error "b"⟩ = ⟨.ok false, false⟩ :=
  commit_changes_clean_tree "m" _ ⟨true, "", ""⟩ rfl rfl (by decide)

/-- C8: a failure of the informational commit-count query does not abort
`git_revert_range`: the run is identical to one in which the query reported
a count of 1, for every pair of references, message and environment. -/
theorem revert_range_count_fallback (cb ca msg e : String) (env : RevertEnv) :
    git_revert_range cb ca msg { env with countResult := .error e } =
      git_revert_range cb ca msg { env with countResult := .ok 1 } := rfl

/-- C5: when the stage-only revert step succeeds but `git status` reports no
resulting changes, `git_revert_range` returns `success = true`,
`commits_reverted` equal to the (fallback-adjusted) count obtained in step 2,
and `new_commit = none`, with the explanatory message — never an error. -/
theorem revert_range_noop_detection (cb ca msg : String) (env : RevertEnv)
    (out st : CmdOutput)
    (hvb : refSliceValid cb = true) (hva : refSliceValid ca = true)
    (hne : cb ≠ ca)
    (hrev : env.revertResult = .ok out) (hok : out.success = true)
    (hst : env.statusResult = .ok st) (hempty : rtrim st.stdout = "") :
    git_revert_range cb ca msg env =
      ⟨.ok ⟨true, reportedCount env.countResult, none,
        "代码已经处于目标状态，无需更改", false⟩, false, false⟩ := by
  simp [git_revert_range, hvb, hva, hne, hrev, hok, hst, hempty]

/-- Witness for C5: a successful revert with empty status output on a
concrete environment returns the no-op outcome with the reported count. -/
theorem revert_range_noop_detection_witness :
    git_revert_range "aaaa1111" "bbbb2222" "m"
      ⟨.ok 3, .ok ⟨true, "", ""⟩, .ok ⟨true, "", ""⟩, .error "c", .error "h"⟩ =
      ⟨.ok ⟨true, 3, none, "代码已经处于目标状态，无需更改", false⟩,
        false, false⟩ :=
  revert_range_noop_detection "aaaa1111" "bbbb2222" "m" _ ⟨true, "", ""⟩
    ⟨true, "", ""⟩ (by decide) (by decide) (by decide) rfl rfl rfl (by decide)

/-- C3: when the revert command fails, a stderr indicating a content
conflict makes the engine invoke `git revert --abort` and return a
successful `Result` carrying `success = false`, `has_conflicts = true` and
a message summarizing the first three lines of the stderr; any other
failure is propagated as an `Err`, not as a revert outcome. -/
theorem revert_range_conflict_handling (cb ca msg : String) (env : RevertEnv)
    (out : CmdOutput)
    (hvb : refSliceValid cb = true) (hva : refSliceValid ca = true)
    (hne : cb ≠ ca) (hrev : env.revertResult = .ok out)
    (hfail : out.success = false) :
    ((rcontains out.stderr "conflict" || rcontains out.stderr "CONFLICT") = true →
      git_revert_range cb ca msg env =
        ⟨.ok ⟨false, 0, none, conflictMsg out.stderr, true⟩, true, false⟩) ∧
    ((rcontains out.stderr "conflict" || rcontains out.stderr "CONFLICT") = false →
      git_revert_range cb ca msg env =
        ⟨.err ("Git revert failed: " ++ out.stderr), false, false⟩) := by
  constructor <;> intro hc <;>
    simp [git_revert_range, hvb, hva, hne, hrev, hfail, hc]

/-- Witness for C3: a failed revert whose stderr contains `CONFLICT`
produces the conflict outcome with the abort invoked. -/
theorem revert_range_conflict_handling_witness :
    git_revert_range "aaaa1111" "bbbb2222" "m"
      ⟨.ok 2, .ok ⟨false, "", "error: could not revert\nCONFLICT (content): x\nhint: fix\nhint: more"⟩,
        .error "s", .error "c", .error "h"⟩ =
      ⟨.ok ⟨false, 0, none,
        conflictMsg "error: could not revert\nCONFLICT (content): x\nhint: fix\nhint: more",
        true⟩, true, false⟩ :=
  (revert_range_conflict_handling "aaaa1111" "bbbb2222" "m" _
    ⟨false, "", "error: could not revert\nCONFLICT (content): x\nhint: fix\nhint: more"⟩
    (by decide) (by decide) (by decide) rfl rfl).1 (by decide)

/-- C2: whenever the target differs from the head and the queries succeed,
`safe_to_proceed` is true iff no other-engine commits were found, no user
commits were found, and the commits to lose are at most 5; in particular
5 same-engine, no-user commits are safe and 6 are not. -/
theorem reset_safety_threshold (target engine h : String) (n : Nat)
    (msgs : List String)
    (hv : refSliceValid target = true) (hne : h ≠ target) :
    (safeOf (check_reset_safety target engine ⟨.ok h, .ok n, .ok msgs⟩) = true ↔
      (otherOf (check_reset_safety target engine ⟨.ok h, .ok n, .ok msgs⟩) = false ∧
       userOf (check_reset_safety target engine ⟨.ok h, .ok n, .ok msgs⟩) = false ∧
       countOf (check_reset_safety target engine ⟨.ok h, .ok n, .ok msgs⟩) ≤ 5)) ∧
    safeOf (check_reset_safety "t1b2c3d4" "claude"
      ⟨.ok "h5e6f7a8", .ok 5, .ok (List.replicate 5 "[Claude] edit")⟩) = true ∧
    safeOf (check_reset_safety "t1b2c3d4" "claude"
      ⟨.ok "h5e6f7a8", .ok 6, .ok (List.replicate 6 "[Claude] edit")⟩) = false := by
  refine ⟨?_, by decide, by decide⟩
  simp [check_reset_safety, hv, hne, safeOf, otherOf, userOf, countOf]
  tauto

/-- Witness for C2 at a concrete target, engine, head, count and log. -/
theorem reset_safety_threshold_witness :
    (safeOf (check_reset_safety "t0a1b2c3" "claude"
        ⟨.ok "h0a1b2c3", .ok 3, .ok ["[Claude] a", "user tweak"]⟩) = true ↔
      (otherOf (check_reset_safety "t0a1b2c3" "claude"
        ⟨.ok "h0a1b2c3", .ok 3, .ok ["[Claude] a", "user tweak"]⟩) = false ∧
       userOf (check_reset_safety "t0a1b2c3" "claude"
        ⟨.ok "h0a1b2c3", .ok 3, .ok ["[Claude] a", "user tweak"]⟩) = false ∧
       countOf (check_reset_safety "t0a1b2c3" "claude"
        ⟨.ok "h0a1b2c3", .ok 3, .ok ["[Claude] a", "user tweak"]⟩) ≤ 5)) :=
  (reset_safety_threshold "t0a1b2c3" "claude" "h0a1b2c3" 3
    ["[Claude] a", "user tweak"] (by decide) (by decide)).1

/-- C6: a subject with no recognized engine marker that is not a merge
message is classified as a user commit; a subject whose marker matches the
caller's engine identity is current-engine (so counted neither as
other-engine nor as user); a subject carrying a marker not matching the
caller's identity is other-engine; and the report's aggregate flags are
exactly the disjunction of these per-subject classifications. -/
theorem origin_classification (engine target h : String) (n : Nat)
    (msgs : List String)
    (hv : refSliceValid target = true) (hne : h ≠ target) :
    (∀ msg, isAnyEngine msg = false → rcontains (rlower msg) "merge" = false →
      isUserCommit msg = true) ∧
    (∀ msg, isCurrentEngine engine msg = true →
      isOtherEngineCommit engine msg = false ∧ isUserCommit msg = false) ∧
    (∀ msg, isAnyEngine msg = true → isCurrentEngine engine msg = false →
      isOtherEngineCommit engine msg = true) ∧
    otherOf (check_reset_safety target engine ⟨.ok h, .ok n, .ok msgs⟩) =
      msgs.any (isOtherEngineCommit engine) ∧
    userOf (check_reset_safety target engine ⟨.ok h, .ok n, .ok msgs⟩) =
      msgs.any isUserCommit := by
  refine ⟨?_, ?_, ?_, ?_, ?_⟩
  · intro msg h1 h2
    simp [isUserCommit, h1, h2]
  · intro msg hc
    have hany := isAnyEngine_of_current engine msg hc
    constructor
    · simp [isOtherEngineCommit, hc]
    · simp [isUserCommit, hany]
  · intro msg h1 h2
    simp [isOtherEngineCommit, h1, h2]
  · simp [check_reset_safety, hv, hne, otherOf]
  · simp [check_reset_safety, hv, hne, userOf]

/-- Witness for C6 at concrete engine, target, head and log. -/
theorem origin_classification_witness :
    isUserCommit "fix typo" = true ∧
    isOtherEngineCommit "claude" "[Codex] refactor" = true ∧
    otherOf (check_reset_safety "t0a1b2c3" "claude"
      ⟨.ok "h0a1b2c3", .ok 2, .ok ["fix typo", "[Codex] refactor"]⟩) = true := by
  have := origin_classification "claude" "t0a1b2c3" "h0a1b2c3" 2
    ["fix typo", "[Codex] refactor"] (by decide) (by decide)
  refine ⟨this.1 "fix typo" (by decide) (by decide),
    this.2.2.1 "[Codex] refactor" (by decide) (by decide), ?_⟩
  rw [this.2.2.2.1]
  decide

/-- C7: for a fixed target and engine identity, extending the intervening
range with commits that are not current-engine commits never flips
`safe_to_proceed` from `false` to `true`. -/
theorem safety_monotone (target engine h : String) (n : Nat)
    (msgs extra : List String)
    (hv : refSliceValid target = true) (hne : h ≠ target)
    (hextra : ∀ m ∈ extra, isCurrentEngine engine m = false)
    (hblocked : safeOf (check_reset_safety target engine
      ⟨.ok h, .ok n, .ok msgs⟩) = false) :
    safeOf (check_reset_safety target engine
      ⟨.ok h, .ok (n + extra.length), .ok (msgs ++ extra)⟩) = false := by
  by_contra hsafe
  rw [Bool.not_eq_false] at hsafe
  simp [check_reset_safety, hv, hne, safeOf] at hsafe hblocked
  obtain ⟨⟨⟨h1, -⟩, h2, -⟩, h3⟩ := hsafe
  have h4 := hblocked h1 h2
  omega

/-- Witness for C7: an unsafe report (a user commit at risk) stays unsafe
after adding another engine's commit to the range. -/
theorem safety_monotone_witness :
    safeOf (check_reset_safety "t0a1b2c3" "claude"
      ⟨.ok "h0a1b2c3", .ok (1 + ["[Codex] z"].length),
        .ok (["user tweak"] ++ ["[Codex] z"])⟩) = false :=
  safety_monotone "t0a1b2c3" "claude" "h0a1b2c3" 1 ["user tweak"] ["[Codex] z"]
    (by decide) (by decide) (by decide) (by decide)

/-- A reference string of 10 bytes whose byte index 8 falls inside the
three-byte UTF-8 encoding of `中` (bytes 7, 8, 9). -/
def badRef : String := "aaaaaaa中"

/-- C10: the byte-index slice taken for logging/message formatting panics on
`badRef` in `git_revert_range`, `precise_revert_code` and
`check_reset_safety` regardless of the environment (before any repository
operation is consulted), while for ASCII references the slice is total. -/
theorem byte_slice_panics :
    (refSliceValid badRef = false ∧
      (∀ env ca msg, git_revert_range badRef ca msg env =
        ⟨.panicked, false, false⟩) ∧
      (∀ env idx, precise_revert_code badRef "cccc4444" idx env =
        ⟨.panicked, false, false⟩) ∧
      (∀ senv engine, check_reset_safety badRef engine senv = .panicked)) ∧
    (∀ s : String, allAscii s = true → refSliceValid s = true) := by
  have hbad : refSliceValid badRef = false := by decide
  refine ⟨⟨hbad, ?_, ?_, ?_⟩, refSliceValid_of_ascii⟩
  · intro env ca msg
    simp [git_revert_range, hbad]
  · intro env idx
    simp [precise_revert_code, hbad]
  · intro senv engine
    simp [check_reset_safety, hbad]

/-- Witness for C10: an eight-character ASCII hash prefix slices safely. -/
theorem byte_slice_panics_witness : refSliceValid "0123abcd" = true :=
  byte_slice_panics.2 "0123abcd" (by decide)

/-- C1: for every repository with history `A→B→C→D→E` and every valid
(conflict-free, non-trivial) range `(B, C)`, `git_revert_range` over the
environment the version-control engine presents succeeds and creates a
single new commit on top of the current head, so the post history is
`A→B→C→D→E→R`; `R`'s tree keeps the current (head) content of every file
the range did not change — commits `D` and `E` survive untouched — and
returns every file whose head content still matches the range's result to
its pre-range content, undoing exactly the net changes of `B..C`. -/
theorem revert_preserves_later_history (r : Repo5) (R : Tree)
    (cb ca msg : String)
    (hrev : revertTree r.treeB r.treeC r.treeE = some R)
    (hne : R ≠ r.treeE)
    (hvb : refSliceValid cb = true) (hva : refSliceValid ca = true)
    (hcbca : cb ≠ ca) :
    git_revert_range cb ca msg (envOfRepo r) =
      ⟨.ok ⟨true, 1, some "rrrrrrrr", "成功撤回 1 个提交的代码更改", false⟩,
        false, true⟩ ∧
    postHistory r (git_revert_range cb ca msg (envOfRepo r)) =
      [r.treeA, r.treeB, r.treeC, r.treeD, r.treeE, R] ∧
    (∀ i, r.treeB.get? i = r.treeC.get? i → R.get? i = r.treeE.get? i) ∧
    (∀ i, r.treeE.get? i = r.treeC.get? i → R.get? i = r.treeB.get? i) := by
  have hrun : git_revert_range cb ca msg (envOfRepo r) =
      ⟨.ok ⟨true, 1, some "rrrrrrrr", "成功撤回 1 个提交的代码更改", false⟩,
        false, true⟩ := by
    simp [git_revert_range, envOfRepo, hrev, hvb, hva, hcbca, hne,
      reportedCount, rtrim]
    rw [if_neg (by decide)]
    rfl
  refine ⟨hrun, ?_, revertTree_unchanged r.treeB r.treeC r.treeE R hrev,
    revertTree_undone r.treeB r.treeC r.treeE R hrev⟩
  rw [hrun]
  simp [postHistory, hrev]

/-- Witness repository for C1: three files; `B` edits file 0, the range
commit `C` edits file 1, `D` edits file 2, `E` edits file 0 again. -/
def repoW : Repo5 :=
  ⟨[some 0, some 0, some 0],
   [some 1, some 0, some 0],
   [some 1, some 2, some 0],
   [some 1, some 2, some 5],
   [some 9, some 2, some 5]⟩

/-- The staged revert tree for `repoW`: file 1 returned to its pre-range
content, files 0 and 2 (changed only in `D`/`E`) untouched. -/
def treeRW : Tree := [some 9, some 0, some 5]

/-- Witness for C1: on `repoW`, reverting range `B..C` yields the successful
run and appends exactly `treeRW` to the history. -/
theorem revert_preserves_later_history_witness :
    git_revert_range "bbbb1111" "cccc2222" "m" (envOfRepo repoW) =
      ⟨.ok ⟨true, 1, some "rrrrrrrr", "成功撤回 1 个提交的代码更改", false⟩,
        false, true⟩ ∧
    postHistory repoW (git_revert_range "bbbb1111" "cccc2222" "m" (envOfRepo repoW)) =
      [repoW.treeA, repoW.treeB, repoW.treeC, repoW.treeD, repoW.treeE, treeRW] :=
  ⟨(revert_preserves_later_history repoW treeRW "bbbb1111" "cccc2222" "m"
      (by decide) (by decide) (by decide) (by decide) (by decide)).1,
   (revert_preserves_later_history repoW treeRW "bbbb1111" "cccc2222" "m"
      (by decide) (by decide) (by decide) (by decide) (by decide)).2.1⟩

end SimpleGit
